import Mathlib

namespace BizcloudQr

/-! Shallow embedding of `src/handlers/qr_export.py`: the paginated QR grid layout
engine (`_layout_qrs_to_pdf_streaming` for the fixed 7x10 sticker sheet, and
`_layout_qrs_to_pdf` for the auto-fit grid), plus the `generate_qr_pdf` control flow
around the streaming layout.

Lengths are exact rationals in PDF points.  The ReportLab canvas is modelled as the
list of draw operations committed to it plus a `saved` flag set by `c.save()`.
Per-item and logo temporary files are modelled by `tmpCreate` / `tmpDelete`
operations; the set of files currently on disk is the derived `liveTemps`.
Collaborator calls that can raise (`_generate_qr_image`, and `Image.open` /
`ImageReader` on the logo path) are modelled by boolean oracles in the
configuration; `c.stringWidth` is an abstract metric, and the decoded logo's
pixel dimensions (after the aspect-preserving `thumbnail` resize) are an abstract
function of the path.  Python's `hash(center_image_path)` in the logo temp file
name is injective per render (a single path is in play), so the temp name is
keyed directly by the path. -/

/-- 1 mm = 2.83465 pt (`MM_TO_PT` in `_layout_qrs_to_pdf_streaming`). -/
def MM_TO_PT : ℚ := 283465 / 100000

/-- ReportLab `A4` width: 210 mm at 72/25.4 pt per mm. -/
def page_width : ℚ := 75600 / 127

/-- ReportLab `A4` height: 297 mm at 72/25.4 pt per mm. -/
def page_height : ℚ := 106920 / 127

/-- `QR_LOGO_RATIO` default `0.25`. -/
def QR_LOGO_RATIO : ℚ := 1 / 4

/-- `QR_SCALE_FACTOR` default `2.0`. -/
def QR_SCALE_FACTOR : ℚ := 2

def top_margin : ℚ := (61 / 2) * MM_TO_PT

def left_margin : ℚ := 23 * MM_TO_PT

def sticker_size : ℚ := 20 * MM_TO_PT

def gap : ℚ := 4 * MM_TO_PT

def qr_size : ℚ := 15 * MM_TO_PT

def label_height : ℚ := 4 * MM_TO_PT

def qr_label_spacing : ℚ := 1 * MM_TO_PT

def cols_per_page : ℕ := 7

def rows_per_page : ℕ := 10

def items_per_page : ℕ := cols_per_page * rows_per_page

def sticker_spacing_x : ℚ := sticker_size + gap

def sticker_spacing_y : ℚ := sticker_size + gap

/-- `max_logo_size = int(qr_size * QR_LOGO_RATIO * 3)`. -/
def max_logo_size : ℤ := ⌊qr_size * QR_LOGO_RATIO * 3⌋

/-- Temporary file names.  The source uses the distinct string prefixes
`._qr_tmp_` (with page/row/col in streaming mode, row/col in auto mode) and
`._logo_resized_`; the constructors keep those namespaces disjoint. -/
inductive TmpName where
  | qrTmp (page row col : ℕ)
  | qrTmpAuto (row col : ℕ)
  | logoResized (path : String)
deriving Repr, DecidableEq

/-- One operation committed to the ReportLab canvas (or to the filesystem for
temporary files).  Stroke-color / line-width settings carry no content and are
omitted. -/
inductive DrawOp where
  | rect (x y w h : ℚ)
  | image (x y w h : ℚ)
  | overlay (x y w h : ℚ)
  | textL (x y size : ℚ) (s : String)
  | textC (x y size : ℚ) (s : String)
  | showPage
  | tmpCreate (n : TmpName)
  | tmpDelete (n : TmpName)
deriving Repr, DecidableEq

/-- Filesystem effect of one operation: `tmpCreate` writes a temp file,
`tmpDelete` is `Path.unlink(missing_ok=True)`. -/
def liveStep (l : List TmpName) : DrawOp → List TmpName
  | .tmpCreate n => l ++ [n]
  | .tmpDelete n => l.filter (fun m => m ≠ n)
  | _ => l

/-- Temporary files on disk after a list of operations has run. -/
def liveTemps (ops : List DrawOp) : List TmpName :=
  ops.foldl liveStep []

def isOverlayOp : DrawOp → Bool
  | .overlay _ _ _ _ => true
  | _ => false

def isImageOp : DrawOp → Bool
  | .image _ _ _ _ => true
  | _ => false

def isTextLOp : DrawOp → Bool
  | .textL _ _ _ _ => true
  | _ => false

/-- Configuration and collaborator oracles for `_layout_qrs_to_pdf_streaming`. -/
structure StreamCfg where
  /-- whether `_generate_qr_image(_build_qr_url(front_domain, record_id))` succeeds -/
  producerOk : ℤ → Bool
  /-- whether `Image.open` + save + `ImageReader` on this logo path succeeds -/
  logoLoadOk : String → Bool
  /-- `reader.getSize()` of the decoded (and possibly thumbnailed) logo -/
  logoSize : String → ℚ × ℚ
  /-- `c.stringWidth(label, "Helvetica", 6)` -/
  strWidth : String → ℚ
  /-- `center_image_path` argument -/
  center_image_path : Option String
  /-- `product_codes` argument: the id -> product_code mapping (None when absent) -/
  product_codes : Option (List (ℤ × String))

/-- The `label` computation: `product_codes[record_id]` when the dict is truthy and
has the key, else `f"record_id: {record_id}"`.  (A `None` dict and an empty dict
both fail the truthiness test; an empty dict also has no keys, so the lookup
match covers both.) -/
def labelFor (pcs : Option (List (ℤ × String))) (rid : ℤ) : String :=
  match pcs with
  | some m =>
    match m.lookup rid with
    | some code => code
    | none => "record_id: " ++ toString rid
  | none => "record_id: " ++ toString rid

/-- Instrumentation record for one drawn item (the per-item log line plus the
computed label geometry): cursor at the moment of drawing, the item's id, the
label and where its text was placed. -/
structure ItemDraw where
  page : ℕ
  row : ℕ
  col : ℕ
  record_id : ℤ
  label : Option String
  label_x : ℚ
  label_y : ℚ
  label_w : ℚ
  sticker_x : ℚ
deriving Repr, DecidableEq

def dfltDraw : ItemDraw :=
  { page := 0, row := 0, col := 0, record_id := 0, label := none,
    label_x := 0, label_y := 0, label_w := 0, sticker_x := 0 }

/-- Mutable state of the streaming layout loop. -/
structure SState where
  ops : List DrawOp
  draws : List ItemDraw
  col : ℕ
  row : ℕ
  page_num : ℕ
  logo_cache : List (String × ℚ × ℚ)
  logo_tmp_files : List String
  decodes : ℕ
  hits : ℕ
  saved : Bool
deriving Repr, DecidableEq

def initState : SState :=
  { ops := [], draws := [], col := 0, row := 0, page_num := 1,
    logo_cache := [], logo_tmp_files := [], decodes := 0, hits := 0, saved := false }

/-- `sticker_x = left_margin + (col * sticker_spacing_x)`. -/
def stickerX (col : ℕ) : ℚ := left_margin + col * sticker_spacing_x

/-- `sticker_y_bottom = page_height - top_margin - (row * sticker_spacing_y) - sticker_size`. -/
def stickerYBottom (row : ℕ) : ℚ :=
  page_height - top_margin - row * sticker_spacing_y - sticker_size

/-- `x = sticker_x + (sticker_size - qr_size) / 2`. -/
def qrPosX (col : ℕ) : ℚ := stickerX col + (sticker_size - qr_size) / 2

/-- `y = sticker_y_top - qr_size = (sticker_y_bottom + sticker_size) - qr_size`. -/
def qrPosY (row : ℕ) : ℚ := (stickerYBottom row + sticker_size) - qr_size

/-- The logo draw + outline: centered in the QR square, width
`qr_size * QR_LOGO_RATIO`, height by the reader's aspect ratio. -/
def logoDrawOps (x y w h : ℚ) : List DrawOp :=
  let logo_width := qr_size * QR_LOGO_RATIO
  let aspect := h / w
  let logo_height := logo_width * aspect
  let logo_x := x + (qr_size - logo_width) / 2
  let logo_y := y + (qr_size - logo_height) / 2
  [.overlay logo_x logo_y logo_width logo_height,
   .rect logo_x logo_y logo_width logo_height]

/-- Net effect of the `if center_image_path:` block on the canvas, the cache, the
logo temp files and the decode / cache-hit counters. -/
structure LogoDelta where
  ops : List DrawOp
  cache : List (String × ℚ × ℚ)
  tmps : List String
  decodes : ℕ
  hits : ℕ

/-- The logo block of the streaming loop.  On a cache miss the source decodes the
image, resizes it, saves it to `._logo_resized_{hash(path)}.png`, records that
temp file for cleanup and caches an `ImageReader`; on a hit it reuses the cached
reader.  A load failure is caught: `reader = None, img_w = 0` and nothing is
drawn or cached. -/
def logoDelta (cfg : StreamCfg) (cache : List (String × ℚ × ℚ)) (x y : ℚ) : LogoDelta :=
  match cfg.center_image_path with
  | none => ⟨[], [], [], 0, 0⟩
  | some p =>
    match cache.lookup p with
    | some wh =>
      ⟨if 0 < wh.1 then logoDrawOps x y wh.1 wh.2 else [], [], [], 0, 1⟩
    | none =>
      if cfg.logoLoadOk p then
        let wh := cfg.logoSize p
        ⟨DrawOp.tmpCreate (.logoResized p) ::
           (if 0 < wh.1 then logoDrawOps x y wh.1 wh.2 else []),
         [(p, wh)], [p], 1, 0⟩
      else ⟨[], [], [], 0, 0⟩

def applyLogo (cfg : StreamCfg) (st : SState) (x y : ℚ) : SState :=
  let d := logoDelta cfg st.logo_cache x y
  { st with ops := st.ops ++ d.ops,
            logo_cache := st.logo_cache ++ d.cache,
            logo_tmp_files := st.logo_tmp_files ++ d.tmps,
            decodes := st.decodes + d.decodes,
            hits := st.hits + d.hits }

/-- The draw record for the item about to be drawn at the current cursor. -/
def mkDraw (cfg : StreamCfg) (st : SState) (rid : ℤ) : ItemDraw :=
  let lbl := labelFor cfg.product_codes rid
  { page := st.page_num, row := st.row, col := st.col, record_id := rid,
    label := some lbl,
    label_w := cfg.strWidth lbl,
    sticker_x := stickerX st.col,
    label_x := stickerX st.col + (sticker_size - cfg.strWidth lbl) / 2,
    label_y := stickerYBottom st.row + 1 * MM_TO_PT }

/-- `col += 1; if col >= cols_per_page: col = 0; row += 1`. -/
def advanceCursor (st : SState) : SState :=
  if cols_per_page ≤ st.col + 1 then { st with col := 0, row := st.row + 1 }
  else { st with col := st.col + 1 }

/-- Ops committed while drawing one item at the current cursor: the red sticker
outline, the per-item temp file write, the QR image draw, the immediate unlink,
the logo block, and the label text (`drawString` at Helvetica 6, with `label_x`
chosen so the text is centered in the sticker). -/
def itemOps (cfg : StreamCfg) (st : SState) (rid : ℤ) : List DrawOp :=
  let x := qrPosX st.col
  let y := qrPosY st.row
  let nm : TmpName := .qrTmp st.page_num st.row st.col
  let d := mkDraw cfg st rid
  [DrawOp.rect (stickerX st.col) (stickerYBottom st.row) sticker_size sticker_size,
   DrawOp.tmpCreate nm, DrawOp.image x y qr_size qr_size, DrawOp.tmpDelete nm] ++
    (logoDelta cfg st.logo_cache x y).ops ++
    [DrawOp.textL d.label_x d.label_y 6 (labelFor cfg.product_codes rid)]

/-- Processing of one item (after the page-break check and a successful
`_generate_qr_image`): draw everything, record the item, advance the cursor. -/
def stepItem (cfg : StreamCfg) (st : SState) (rid : ℤ) : SState :=
  let st1 := applyLogo cfg
    { st with ops := st.ops ++
        [DrawOp.rect (stickerX st.col) (stickerYBottom st.row) sticker_size sticker_size,
         DrawOp.tmpCreate (.qrTmp st.page_num st.row st.col),
         DrawOp.image (qrPosX st.col) (qrPosY st.row) qr_size qr_size,
         DrawOp.tmpDelete (.qrTmp st.page_num st.row st.col)] }
    (qrPosX st.col) (qrPosY st.row)
  let d := mkDraw cfg st rid
  advanceCursor
    { st1 with ops := st1.ops ++ [DrawOp.textL d.label_x d.label_y 6 (labelFor cfg.product_codes rid)],
               draws := st1.draws ++ [d] }

/-- `if row >= rows_per_page: c.showPage(); row = 0; col = 0; page_num += 1` —
checked before the item is drawn. -/
def breakCheck (st : SState) : SState :=
  if rows_per_page ≤ st.row then
    { st with ops := st.ops ++ [DrawOp.showPage], row := 0, col := 0,
              page_num := st.page_num + 1 }
  else st

/-- `c.save()` followed by the logo temp file cleanup loop (which runs only after
a successful save — the function has no try/finally). -/
def finalize (st : SState) : SState :=
  { st with saved := true,
            ops := st.ops ++ st.logo_tmp_files.map (fun p => DrawOp.tmpDelete (.logoResized p)) }

/-- Result of the streaming layout: either the saved state, or the state at the
moment an exception propagated out (carrying which files were on disk then). -/
inductive Outcome where
  | ok (st : SState)
  | failed (msg : String) (st : SState)
deriving Repr, DecidableEq

def outState : Outcome → SState
  | .ok st => st
  | .failed _ st => st

def isFailedB : Outcome → Bool
  | .ok _ => false
  | .failed _ _ => true

def isSavedB (o : Outcome) : Bool := (outState o).saved

/-- The main loop of `_layout_qrs_to_pdf_streaming`.  Per item: page-break check,
QR generation (the only raising call modelled — a failure propagates immediately,
skipping `c.save()` and the cleanup loop), then drawing and cursor advance. -/
def streamGo (cfg : StreamCfg) : List ℤ → SState → Outcome
  | [], st => .ok (finalize st)
  | rid :: rest, st =>
    let st1 := breakCheck st
    if cfg.producerOk rid then streamGo cfg rest (stepItem cfg st1 rid)
    else .failed ("qr image generation failed: " ++ toString rid) st1

/-- `_layout_qrs_to_pdf_streaming(record_ids, ...)`. -/
def layout_qrs_to_pdf_streaming (cfg : StreamCfg) (record_ids : List ℤ) : Outcome :=
  streamGo cfg record_ids initState

def drawAt (o : Outcome) (n : ℕ) : ItemDraw := (outState o).draws.getD n dfltDraw

/-- `generate_qr_pdf`: `_fetch_ids` raises on an empty `record_ids` list, then the
fetched id list is checked — empty means `ValueError` — before the streaming
layout runs.  The DB fetch itself is a collaborator, so the fetched list is a
parameter. -/
def generate_qr_pdf (cfg : StreamCfg) (record_ids fetched_ids : List ℤ) :
    Except String Outcome :=
  if record_ids = [] then .error "record_ids is required."
  else if fetched_ids = [] then .error "QR を作成する対象レコードが存在しません。"
  else .ok (layout_qrs_to_pdf_streaming cfg fetched_ids)

/-! ### The auto-fit grid layout `_layout_qrs_to_pdf` -/

/-- One entry of `image_data`: the PIL image itself is always present; the label
and the logo path are optional. -/
structure AGItem where
  label : Option String
  center_image : Option String
deriving Repr, DecidableEq

/-- Configuration of `_layout_qrs_to_pdf`: the `QR_COLS_PER_ROW` environment value
(any integer) and the logo collaborator oracles. -/
structure ACfg where
  cols_env : ℤ
  logoLoadOk : String → Bool
  logoSize : String → ℚ × ℚ

/-- `if cols not in {4, 5, 6, 7, 8}: cols = 4`. -/
def resolveCols (c : ℤ) : ℕ :=
  if c = 4 ∨ c = 5 ∨ c = 6 ∨ c = 7 ∨ c = 8 then c.toNat else 4

def margin_x : ℚ := 40

def margin_y : ℚ := 40

/-- The auto-grid label strip height (`label_height = 16` in `_layout_qrs_to_pdf`). -/
def auto_label_height : ℚ := 16

def cell_width (c : ℤ) : ℚ := (page_width - margin_x * 2) / (resolveCols c : ℚ)

def cell_height (c : ℤ) : ℚ := cell_width c + auto_label_height

/-- Usable vertical span `page_height - margin_y - margin_y`; the page-break test is
`margin_y + (row + 1) * cell_height > page_height - margin_y`, i.e.
`(row + 1) * cell_height > auto_bound`. -/
def auto_bound : ℚ := page_height - 2 * margin_y

/-- Rows that fit on one auto-grid page: the largest `r` with
`r * cell_height ≤ auto_bound`. -/
def auto_rows_per_page (c : ℤ) : ℕ := (⌊auto_bound / cell_height c⌋).toNat

def auto_x (c : ℤ) (col : ℕ) : ℚ := margin_x + col * cell_width c

/-- `y = page_height - margin_y - (row + 1) * cell_height + label_height`. -/
def auto_y (c : ℤ) (row : ℕ) : ℚ :=
  page_height - margin_y - (row + 1) * cell_height c + auto_label_height

structure AutoDraw where
  row : ℕ
  col : ℕ
  label : Option String
deriving Repr, DecidableEq

def dfltAutoDraw : AutoDraw := { row := 0, col := 0, label := none }

structure AState where
  ops : List DrawOp
  draws : List AutoDraw
  col : ℕ
  row : ℕ
  logo_cache : List (String × ℚ × ℚ)
  saved : Bool
deriving Repr, DecidableEq

def initAuto : AState :=
  { ops := [], draws := [], col := 0, row := 0, logo_cache := [], saved := false }

/-- Logo overlay in a cell of width `cw`, centered over the QR square. -/
def autoLogoOps (x y cw w h : ℚ) : List DrawOp :=
  let logo_width := cw * QR_LOGO_RATIO
  let aspect := h / w
  let logo_height := logo_width * aspect
  let logo_x := x + (cw - logo_width) / 2
  let logo_y := y + (cw - logo_height) / 2
  [.overlay logo_x logo_y logo_width logo_height,
   .rect logo_x logo_y logo_width logo_height]

/-- The `if center_image:` block of the auto layout: `ImageReader(center_image)`
directly (no temp file), cached by path; a load failure is caught and skips the
overlay. -/
def autoLogoDelta (cfg : ACfg) (cache : List (String × ℚ × ℚ)) (x y cw : ℚ)
    (ci : Option String) : List DrawOp × List (String × ℚ × ℚ) :=
  match ci with
  | none => ([], [])
  | some p =>
    match cache.lookup p with
    | some wh => (if 0 < wh.1 then autoLogoOps x y cw wh.1 wh.2 else [], [])
    | none =>
      if cfg.logoLoadOk p then
        let wh := cfg.logoSize p
        (if 0 < wh.1 then autoLogoOps x y cw wh.1 wh.2 else [], [(p, wh)])
      else ([], [])

/-- `col += 1; if col >= cols: col = 0; row += 1;` followed — only on a column
wrap — by the page-break check
`if margin_y + (row + 1) * cell_height > page_height - margin_y`, done after the
advance. -/
def autoAdvance (c : ℤ) (st : AState) : AState :=
  if resolveCols c ≤ st.col + 1 then
    if auto_bound < ((st.row : ℚ) + 1 + 1) * cell_height c then
      { st with ops := st.ops ++ [DrawOp.showPage], col := 0, row := 0 }
    else { st with col := 0, row := st.row + 1 }
  else { st with col := st.col + 1 }

/-- One iteration of the `_layout_qrs_to_pdf` loop: temp-file QR draw, optional
logo, optional centered label (`drawCentredString` at Helvetica 8), then the
advance with its page-break check. -/
def stepAuto (cfg : ACfg) (st : AState) (it : AGItem) : AState :=
  let cw := cell_width cfg.cols_env
  let x := auto_x cfg.cols_env st.col
  let y := auto_y cfg.cols_env st.row
  let nm : TmpName := .qrTmpAuto st.row st.col
  let ld := autoLogoDelta cfg st.logo_cache x y cw it.center_image
  let lblOps : List DrawOp :=
    match it.label with
    | some s => [.textC (x + cw / 2) (y - 4) 8 s]
    | none => []
  let newOps :=
    [DrawOp.tmpCreate nm, DrawOp.image x y cw cw, DrawOp.tmpDelete nm] ++ ld.1 ++ lblOps
  autoAdvance cfg.cols_env
    { st with ops := st.ops ++ newOps,
              logo_cache := st.logo_cache ++ ld.2,
              draws := st.draws ++ [AutoDraw.mk st.row st.col it.label] }

def autoGo (cfg : ACfg) : List AGItem → AState → AState
  | [], st => { st with saved := true }
  | it :: rest, st => autoGo cfg rest (stepAuto cfg st it)

/-- `_layout_qrs_to_pdf(image_data, output_path)`. -/
def layout_qrs_to_pdf (cfg : ACfg) (items : List AGItem) : AState :=
  autoGo cfg items initAuto

def autoDrawAt (st : AState) (n : ℕ) : AutoDraw := st.draws.getD n dfltAutoDraw

/-! ### Concrete configurations used by witnesses and counterexamples -/

def noLogoCfg : StreamCfg :=
  { producerOk := fun _ => true, logoLoadOk := fun _ => true,
    logoSize := fun _ => (31, 31), strWidth := fun _ => 10,
    center_image_path := none, product_codes := none }

def logoCfg : StreamCfg :=
  { noLogoCfg with center_image_path := some "assets/minato_qr_logo.png" }

def badLogoCfg : StreamCfg :=
  { logoCfg with logoLoadOk := fun _ => false }

def failCfg : StreamCfg :=
  { noLogoCfg with producerOk := fun _ => false }

def failSecondCfg : StreamCfg :=
  { logoCfg with producerOk := fun r => r != 2 }

def autoCfg4 : ACfg :=
  { cols_env := 4, logoLoadOk := fun _ => true, logoSize := fun _ => (31, 31) }

/-! ### List helpers -/

lemma getD_append_lt {α : Type} (l₁ l₂ : List α) (d : α) (n : ℕ) (h : n < l₁.length) :
    (l₁ ++ l₂).getD n d = l₁.getD n d := by
  simp [List.getD_eq_getElem?_getD, List.getElem?_append, h]

lemma getD_append_len {α : Type} (l : List α) (a d : α) :
    (l ++ [a]).getD l.length d = a := by
  simp [List.getD_eq_getElem?_getD, List.getElem?_concat_length]

lemma getD_mem {α : Type} (l : List α) (n : ℕ) (d : α) (h : n < l.length) :
    l.getD n d ∈ l := by
  induction l generalizing n with
  | nil => simp at h
  | cons x xs ih =>
    cases n with
    | zero => simp
    | succ m =>
      simp only [List.getD_cons_succ]
      exact List.mem_cons_of_mem _ (ih m (by simp at h; omega))

/-! ### Characterization of the streaming step functions -/

lemma applyLogo_ops (cfg : StreamCfg) (st : SState) (x y : ℚ) :
    (applyLogo cfg st x y).ops = st.ops ++ (logoDelta cfg st.logo_cache x y).ops := rfl

lemma applyLogo_cache (cfg : StreamCfg) (st : SState) (x y : ℚ) :
    (applyLogo cfg st x y).logo_cache = st.logo_cache ++ (logoDelta cfg st.logo_cache x y).cache := rfl

lemma applyLogo_tmps (cfg : StreamCfg) (st : SState) (x y : ℚ) :
    (applyLogo cfg st x y).logo_tmp_files
      = st.logo_tmp_files ++ (logoDelta cfg st.logo_cache x y).tmps := rfl

lemma applyLogo_decodes (cfg : StreamCfg) (st : SState) (x y : ℚ) :
    (applyLogo cfg st x y).decodes = st.decodes + (logoDelta cfg st.logo_cache x y).decodes := rfl

lemma applyLogo_hits (cfg : StreamCfg) (st : SState) (x y : ℚ) :
    (applyLogo cfg st x y).hits = st.hits + (logoDelta cfg st.logo_cache x y).hits := rfl

lemma advanceCursor_eta (st : SState) :
    (advanceCursor st).ops = st.ops ∧ (advanceCursor st).draws = st.draws ∧
    (advanceCursor st).page_num = st.page_num ∧
    (advanceCursor st).logo_cache = st.logo_cache ∧
    (advanceCursor st).logo_tmp_files = st.logo_tmp_files ∧
    (advanceCursor st).decodes = st.decodes ∧ (advanceCursor st).hits = st.hits ∧
    (advanceCursor st).saved = st.saved := by
  unfold advanceCursor
  split <;> exact ⟨rfl, rfl, rfl, rfl, rfl, rfl, rfl, rfl⟩

lemma advanceCursor_col (st : SState) :
    (advanceCursor st).col = if cols_per_page ≤ st.col + 1 then 0 else st.col + 1 := by
  unfold advanceCursor
  split <;> simp_all

lemma advanceCursor_row (st : SState) :
    (advanceCursor st).row = if cols_per_page ≤ st.col + 1 then st.row + 1 else st.row := by
  unfold advanceCursor
  split <;> simp_all

lemma stepItem_draws (cfg : StreamCfg) (st : SState) (rid : ℤ) :
    (stepItem cfg st rid).draws = st.draws ++ [mkDraw cfg st rid] := by
  unfold stepItem
  rw [(advanceCursor_eta _).2.1]
  rfl

lemma stepItem_ops (cfg : StreamCfg) (st : SState) (rid : ℤ) :
    (stepItem cfg st rid).ops = st.ops ++ itemOps cfg st rid := by
  unfold stepItem itemOps
  rw [(advanceCursor_eta _).1]
  simp [applyLogo_ops, List.append_assoc]

lemma stepItem_page (cfg : StreamCfg) (st : SState) (rid : ℤ) :
    (stepItem cfg st rid).page_num = st.page_num := by
  unfold stepItem
  rw [(advanceCursor_eta _).2.2.1]
  rfl

lemma stepItem_saved (cfg : StreamCfg) (st : SState) (rid : ℤ) :
    (stepItem cfg st rid).saved = st.saved := by
  unfold stepItem
  rw [(advanceCursor_eta _).2.2.2.2.2.2.2]
  rfl

lemma stepItem_cache (cfg : StreamCfg) (st : SState) (rid : ℤ) :
    (stepItem cfg st rid).logo_cache
      = st.logo_cache ++ (logoDelta cfg st.logo_cache (qrPosX st.col) (qrPosY st.row)).cache := by
  unfold stepItem
  rw [(advanceCursor_eta _).2.2.2.1]
  rfl

lemma stepItem_tmps (cfg : StreamCfg) (st : SState) (rid : ℤ) :
    (stepItem cfg st rid).logo_tmp_files
      = st.logo_tmp_files ++ (logoDelta cfg st.logo_cache (qrPosX st.col) (qrPosY st.row)).tmps := by
  unfold stepItem
  rw [(advanceCursor_eta _).2.2.2.2.1]
  rfl

lemma stepItem_decodes (cfg : StreamCfg) (st : SState) (rid : ℤ) :
    (stepItem cfg st rid).decodes
      = st.decodes + (logoDelta cfg st.logo_cache (qrPosX st.col) (qrPosY st.row)).decodes := by
  unfold stepItem
  rw [(advanceCursor_eta _).2.2.2.2.2.1]
  rfl

lemma stepItem_hits (cfg : StreamCfg) (st : SState) (rid : ℤ) :
    (stepItem cfg st rid).hits
      = st.hits + (logoDelta cfg st.logo_cache (qrPosX st.col) (qrPosY st.row)).hits := by
  unfold stepItem
  rw [(advanceCursor_eta _).2.2.2.2.2.2.1]
  rfl

lemma stepItem_col (cfg : StreamCfg) (st : SState) (rid : ℤ) :
    (stepItem cfg st rid).col = if cols_per_page ≤ st.col + 1 then 0 else st.col + 1 := by
  unfold stepItem
  rw [advanceCursor_col]
  rfl

lemma stepItem_row (cfg : StreamCfg) (st : SState) (rid : ℤ) :
    (stepItem cfg st rid).row = if cols_per_page ≤ st.col + 1 then st.row + 1 else st.row := by
  unfold stepItem
  rw [advanceCursor_row]
  rfl

lemma breakCheck_of_ge (st : SState) (h : rows_per_page ≤ st.row) :
    breakCheck st = { st with ops := st.ops ++ [DrawOp.showPage], row := 0, col := 0,
                              page_num := st.page_num + 1 } := by
  unfold breakCheck
  rw [if_pos h]

lemma breakCheck_of_lt (st : SState) (h : st.row < rows_per_page) :
    breakCheck st = st := by
  unfold breakCheck
  rw [if_neg (by omega)]

lemma breakCheck_eta (st : SState) :
    (breakCheck st).draws = st.draws ∧ (breakCheck st).saved = st.saved ∧
    (breakCheck st).logo_cache = st.logo_cache ∧
    (breakCheck st).logo_tmp_files = st.logo_tmp_files ∧
    (breakCheck st).decodes = st.decodes ∧ (breakCheck st).hits = st.hits := by
  unfold breakCheck
  split <;> exact ⟨rfl, rfl, rfl, rfl, rfl, rfl⟩

lemma streamGo_nil (cfg : StreamCfg) (st : SState) :
    streamGo cfg [] st = .ok (finalize st) := rfl

lemma streamGo_cons_ok (cfg : StreamCfg) (rid : ℤ) (rest : List ℤ) (st : SState)
    (h : cfg.producerOk rid = true) :
    streamGo cfg (rid :: rest) st = streamGo cfg rest (stepItem cfg (breakCheck st) rid) := by
  simp [streamGo, h]

lemma streamGo_cons_fail (cfg : StreamCfg) (rid : ℤ) (rest : List ℤ) (st : SState)
    (h : cfg.producerOk rid = false) :
    streamGo cfg (rid :: rest) st
      = .failed ("qr image generation failed: " ++ toString rid) (breakCheck st) := by
  simp [streamGo, h]

/-! ### Master invariant of the streaming loop (success path) -/

/-- Invariant of `streamGo` when every producer call succeeds: starting from a
state that has already processed `k` items, the run saves the document, and item
number `n` of the overall input is drawn at page `n / 70 + 1` (1-based, as the
source counts pages), row `(n % 70) / 7`, column `n % 7`, in input order. -/
lemma streamGo_master (cfg : StreamCfg) (rest : List ℤ) :
    ∀ (st : SState) (k : ℕ),
      (∀ id ∈ rest, cfg.producerOk id = true) →
      st.col = k % 7 →
      st.row = k / 7 - 10 * ((k - 1) / 70) →
      st.page_num = (k - 1) / 70 + 1 →
      st.draws.length = k →
      ∃ st', streamGo cfg rest st = .ok st' ∧
        st'.saved = true ∧
        st'.draws.length = k + rest.length ∧
        st'.page_num = (k + rest.length - 1) / 70 + 1 ∧
        (∀ n, n < k → st'.draws.getD n dfltDraw = st.draws.getD n dfltDraw) ∧
        (∀ n, k ≤ n → n < k + rest.length →
          (st'.draws.getD n dfltDraw).page = n / 70 + 1 ∧
          (st'.draws.getD n dfltDraw).row = n % 70 / 7 ∧
          (st'.draws.getD n dfltDraw).col = n % 7 ∧
          (st'.draws.getD n dfltDraw).record_id = rest.getD (n - k) 0) := by
  induction rest with
  | nil =>
    intro st k hp hc hr hpg hd
    refine ⟨finalize st, streamGo_nil cfg st, rfl, ?_, ?_, ?_, ?_⟩
    · simpa [finalize] using hd
    · simpa [finalize] using hpg
    · intro n _
      rfl
    · intro n hkn hn
      simp at hn
      omega
  | cons rid rest ih =>
    intro st k hp hc hr hpg hd
    have hp1 : cfg.producerOk rid = true := hp rid (by simp)
    have hp2 : ∀ id ∈ rest, cfg.producerOk id = true := fun id h => hp id (by simp [h])
    obtain ⟨hbc, hbr2, hbp, hbd⟩ :
        (breakCheck st).col = k % 7 ∧ (breakCheck st).row = k % 70 / 7 ∧
        (breakCheck st).page_num = k / 70 + 1 ∧ (breakCheck st).draws = st.draws := by
      by_cases h10 : rows_per_page ≤ st.row
      · have h10' : 10 ≤ k / 7 - 10 * ((k - 1) / 70) := by
          rw [hr] at h10
          simpa [rows_per_page] using h10
        rw [breakCheck_of_ge st h10]
        refine ⟨?_, ?_, ?_, rfl⟩
        · show 0 = k % 7
          omega
        · show 0 = k % 70 / 7
          omega
        · show st.page_num + 1 = k / 70 + 1
          omega
      · have h10' : k / 7 - 10 * ((k - 1) / 70) < 10 := by
          rw [hr] at h10
          simp [rows_per_page] at h10
          omega
        rw [breakCheck_of_lt st (by simp [rows_per_page]; omega)]
        refine ⟨hc, ?_, ?_, rfl⟩
        · rw [hr]
          omega
        · rw [hpg]
          omega
    set stb := breakCheck st with hstb
    set st2 := stepItem cfg stb rid with hst2
    have h2draws : st2.draws = st.draws ++ [mkDraw cfg stb rid] := by
      rw [hst2, stepItem_draws, hbd]
    have h2len : st2.draws.length = k + 1 := by
      rw [h2draws]
      simp [hd]
    have h2c : st2.col = (k + 1) % 7 := by
      rw [hst2, stepItem_col, hbc]
      simp only [cols_per_page]
      split <;> omega
    have h2r : st2.row = (k + 1) / 7 - 10 * (((k + 1) - 1) / 70) := by
      rw [hst2, stepItem_row, hbc, hbr2]
      simp only [cols_per_page]
      split <;> omega
    have h2p : st2.page_num = ((k + 1) - 1) / 70 + 1 := by
      rw [hst2, stepItem_page, hbp]
      omega
    obtain ⟨st', hgo, hsaved, hlen, hpage, hpre, hidx⟩ := ih st2 (k + 1) hp2 h2c h2r h2p h2len
    refine ⟨st', ?_, hsaved, ?_, ?_, ?_, ?_⟩
    · rw [streamGo_cons_ok cfg rid rest st hp1, ← hstb, ← hst2]
      exact hgo
    · rw [hlen]
      simp only [List.length_cons]
      omega
    · rw [hpage]
      simp only [List.length_cons]
      omega
    · intro n hn
      rw [hpre n (by omega), h2draws, getD_append_lt _ _ _ _ (by omega)]
    · intro n hkn hn
      rcases Nat.eq_or_lt_of_le hkn with heq | hlt
      · have hdn : st.draws.length = n := by omega
        have hk : st'.draws.getD n dfltDraw = mkDraw cfg stb rid := by
          rw [hpre n (by omega), h2draws, ← hdn, getD_append_len]
        rw [hk]
        refine ⟨?_, ?_, ?_, ?_⟩
        · show stb.page_num = n / 70 + 1
          rw [hbp]
          omega
        · show stb.row = n % 70 / 7
          rw [hbr2]
          omega
        · show stb.col = n % 7
          rw [hbc]
          omega
        · show rid = (rid :: rest).getD (n - k) 0
          have hz : n - k = 0 := by omega
          rw [hz]
          simp
      · obtain ⟨hpg', hrw', hcl', hrid'⟩ := hidx n (by omega) (by simp at hn ⊢; omega)
        refine ⟨hpg', hrw', hcl', ?_⟩
        rw [hrid']
        have hsub : n - k = (n - (k + 1)) + 1 := by omega
        rw [hsub, List.getD_cons_succ]

/-! ### Pointwise facts about every recorded draw (streaming, any outcome) -/

/-- The `drawString` call emitted for a drawn item's label. -/
def labelOpOf (cfg : StreamCfg) (d : ItemDraw) : DrawOp :=
  DrawOp.textL d.label_x d.label_y 6 (labelFor cfg.product_codes d.record_id)

/-- Facts holding of every draw record the streaming loop ever produces. -/
def DrawInv (cfg : StreamCfg) (d : ItemDraw) : Prop :=
  d.col < cols_per_page ∧ d.row < rows_per_page ∧
  d.label = some (labelFor cfg.product_codes d.record_id) ∧
  d.sticker_x = stickerX d.col ∧
  d.label_w = cfg.strWidth (labelFor cfg.product_codes d.record_id) ∧
  d.label_x = d.sticker_x + (sticker_size - d.label_w) / 2 ∧
  d.label_y = stickerYBottom d.row + 1 * MM_TO_PT

lemma breakCheck_ops_mono (st : SState) (op : DrawOp) (h : op ∈ st.ops) :
    op ∈ (breakCheck st).ops := by
  unfold breakCheck
  split
  · exact List.mem_append_left _ h
  · exact h

lemma breakCheck_col_lt (st : SState) (h : st.col < cols_per_page) :
    (breakCheck st).col < cols_per_page := by
  unfold breakCheck
  split
  · simp [cols_per_page]
  · exact h

lemma breakCheck_row_lt (st : SState) : (breakCheck st).row < rows_per_page := by
  unfold breakCheck
  split
  · simp [rows_per_page]
  · simp only [rows_per_page] at *
    omega

lemma stepItem_ops_mono (cfg : StreamCfg) (st : SState) (rid : ℤ) (op : DrawOp)
    (h : op ∈ st.ops) : op ∈ (stepItem cfg st rid).ops := by
  rw [stepItem_ops]
  exact List.mem_append_left _ h

lemma stepItem_label_mem (cfg : StreamCfg) (st : SState) (rid : ℤ) :
    labelOpOf cfg (mkDraw cfg st rid) ∈ (stepItem cfg st rid).ops := by
  rw [stepItem_ops]
  apply List.mem_append_right
  unfold itemOps labelOpOf
  apply List.mem_append_right
  simp [mkDraw]

lemma mkDraw_inv (cfg : StreamCfg) (st : SState) (rid : ℤ)
    (hc : st.col < cols_per_page) (hr : st.row < rows_per_page) :
    DrawInv cfg (mkDraw cfg st rid) := by
  refine ⟨hc, hr, ?_, ?_, ?_, ?_, ?_⟩ <;> simp [mkDraw]

lemma stepItem_col_lt (cfg : StreamCfg) (st : SState) (rid : ℤ)
    (h : st.col < cols_per_page) : (stepItem cfg st rid).col < cols_per_page := by
  rw [stepItem_col]
  simp only [cols_per_page] at *
  split <;> omega

/-- Every draw record of any streaming run — successful or aborted — is in
bounds, carries a non-`None` label of the documented form, and its label text
op is on the canvas at Helvetica 6, positioned to center the text in the
sticker. -/
lemma streamGo_pointwise (cfg : StreamCfg) (rest : List ℤ) :
    ∀ st : SState, st.col < cols_per_page →
      (∀ d ∈ st.draws, DrawInv cfg d ∧ labelOpOf cfg d ∈ st.ops) →
      ∀ d ∈ (outState (streamGo cfg rest st)).draws,
        DrawInv cfg d ∧ labelOpOf cfg d ∈ (outState (streamGo cfg rest st)).ops := by
  induction rest with
  | nil =>
    intro st hcol hinv d hd
    have hd' : d ∈ st.draws := by
      simpa [streamGo_nil, outState, finalize] using hd
    refine ⟨(hinv d hd').1, ?_⟩
    have := (hinv d hd').2
    simp only [streamGo_nil, outState, finalize]
    exact List.mem_append_left _ this
  | cons rid rest ih =>
    intro st hcol hinv d hd
    by_cases hok : cfg.producerOk rid = true
    · rw [streamGo_cons_ok cfg rid rest st hok] at hd ⊢
      refine ih (stepItem cfg (breakCheck st) rid) ?_ ?_ d hd
      · exact stepItem_col_lt _ _ _ (breakCheck_col_lt st hcol)
      · intro e he
        rw [stepItem_draws] at he
        rcases List.mem_append.mp he with hold | hnew
        · rw [(breakCheck_eta st).1] at hold
          exact ⟨(hinv e hold).1,
            stepItem_ops_mono _ _ _ _ (breakCheck_ops_mono st _ (hinv e hold).2)⟩
        · have he' : e = mkDraw cfg (breakCheck st) rid := by simpa using hnew
          subst he'
          exact ⟨mkDraw_inv _ _ _ (breakCheck_col_lt st hcol) (breakCheck_row_lt st),
            stepItem_label_mem _ _ _⟩
    · have hok' : cfg.producerOk rid = false := by
        simpa using hok
      rw [streamGo_cons_fail cfg rid rest st hok'] at hd ⊢
      simp only [outState] at hd ⊢
      rw [(breakCheck_eta st).1] at hd
      exact ⟨(hinv d hd).1, breakCheck_ops_mono st _ (hinv d hd).2⟩

/-! ### Failure path (producer failure aborts the render unsaved) -/

lemma streamGo_fail (cfg : StreamCfg) (rest : List ℤ) :
    ∀ st : SState, st.saved = false →
      (∃ id ∈ rest, cfg.producerOk id = false) →
      isFailedB (streamGo cfg rest st) = true ∧
      isSavedB (streamGo cfg rest st) = false := by
  induction rest with
  | nil =>
    intro st _ h
    simp at h
  | cons rid rest ih =>
    intro st hs h
    by_cases hok : cfg.producerOk rid = true
    · rw [streamGo_cons_ok cfg rid rest st hok]
      apply ih
      · rw [stepItem_saved, (breakCheck_eta st).2.1]
        exact hs
      · rcases h with ⟨id, hid, hfail⟩
        rcases List.mem_cons.mp hid with heq | hmem
        · subst heq
          rw [hok] at hfail
          cases hfail
        · exact ⟨id, hmem, hfail⟩
    · have hok' : cfg.producerOk rid = false := by simpa using hok
      rw [streamGo_cons_fail cfg rid rest st hok']
      refine ⟨rfl, ?_⟩
      show (breakCheck st).saved = false
      rw [(breakCheck_eta st).2.1]
      exact hs

/-! ### Temporary-file lifecycle -/

lemma liveTemps_append (a b : List DrawOp) :
    liveTemps (a ++ b) = b.foldl liveStep (liveTemps a) := by
  simp [liveTemps, List.foldl_append]

lemma foldl_liveStep_logoDrawOps (l : List TmpName) (x y w h : ℚ) :
    List.foldl liveStep l (logoDrawOps x y w h) = l := rfl

lemma filter_ne_append_singleton {l : List TmpName} {q : TmpName}
    (hq : ∀ m ∈ l, m ≠ q) :
    (l ++ [q]).filter (fun m => m ≠ q) = l := by
  rw [List.filter_append]
  have h1 : l.filter (fun m => m ≠ q) = l :=
    List.filter_eq_self.mpr (fun a ha => by simpa using hq a ha)
  simp [h1]
  exact fun a ha => hq a ha

/-- The filesystem effect of one item's ops: the per-item QR temp file is created
and deleted within the item; only logo temp files survive it. -/
lemma foldl_liveStep_item (cfg : StreamCfg) (st : SState) (rid : ℤ) (l : List TmpName)
    (hl : ∀ m ∈ l, ∃ p, m = TmpName.logoResized p) :
    List.foldl liveStep l (itemOps cfg st rid)
      = l ++ ((logoDelta cfg st.logo_cache (qrPosX st.col) (qrPosY st.row)).tmps.map
          TmpName.logoResized) := by
  have hq : ∀ m ∈ l, m ≠ TmpName.qrTmp st.page_num st.row st.col := by
    intro m hm
    obtain ⟨p, hp⟩ := hl m hm
    simp [hp]
  unfold itemOps
  rw [List.foldl_append, List.foldl_append]
  have h4 : List.foldl liveStep l
      [DrawOp.rect (stickerX st.col) (stickerYBottom st.row) sticker_size sticker_size,
       DrawOp.tmpCreate (.qrTmp st.page_num st.row st.col),
       DrawOp.image (qrPosX st.col) (qrPosY st.row) qr_size qr_size,
       DrawOp.tmpDelete (.qrTmp st.page_num st.row st.col)] = l := by
    simp only [List.foldl_cons, List.foldl_nil, liveStep]
    exact filter_ne_append_singleton hq
  rw [h4]
  have hmid : List.foldl liveStep l
      (logoDelta cfg st.logo_cache (qrPosX st.col) (qrPosY st.row)).ops
      = l ++ ((logoDelta cfg st.logo_cache (qrPosX st.col) (qrPosY st.row)).tmps.map
          TmpName.logoResized) := by
    unfold logoDelta
    rcases cfg.center_image_path with _ | p
    · simp
    · rcases hlk : st.logo_cache.lookup p with _ | wh <;> simp only [hlk]
      · split
        · split
          · simp only [List.foldl_cons, liveStep, foldl_liveStep_logoDrawOps]
            simp
          · simp [liveStep]
        · simp
      · split
        · rw [foldl_liveStep_logoDrawOps]
          simp
        · simp
  rw [hmid]
  simp [liveStep]

lemma breakCheck_live (st : SState) :
    liveTemps (breakCheck st).ops = liveTemps st.ops := by
  unfold breakCheck
  split
  · simp [liveTemps_append, liveStep]
  · rfl

lemma stepItem_live (cfg : StreamCfg) (st : SState) (rid : ℤ)
    (h : liveTemps st.ops = st.logo_tmp_files.map TmpName.logoResized) :
    liveTemps (stepItem cfg st rid).ops
      = (stepItem cfg st rid).logo_tmp_files.map TmpName.logoResized := by
  rw [stepItem_ops, liveTemps_append, h, stepItem_tmps, List.map_append]
  apply foldl_liveStep_item
  intro m hm
  obtain ⟨p, _, hp⟩ := List.mem_map.mp hm
  exact ⟨p, hp.symm⟩

/-- Deleting every logo temp file empties the live set, provided everything live
is one of them. -/
lemma foldl_deletes (ps : List String) :
    ∀ l : List TmpName, (∀ m ∈ l, ∃ p ∈ ps, m = TmpName.logoResized p) →
      List.foldl liveStep l (ps.map fun p => DrawOp.tmpDelete (TmpName.logoResized p)) = [] := by
  induction ps with
  | nil =>
    intro l hl
    cases l with
    | nil => rfl
    | cons a as =>
      obtain ⟨p, hp, _⟩ := hl a (by simp)
      simp at hp
  | cons p ps ih =>
    intro l hl
    simp only [List.map_cons, List.foldl_cons, liveStep]
    apply ih
    intro m hm
    have hm' := List.mem_filter.mp hm
    obtain ⟨p', hp', hmp'⟩ := hl m hm'.1
    have hne : m ≠ TmpName.logoResized p := by simpa using hm'.2
    rcases List.mem_cons.mp hp' with heq | hmem
    · subst heq
      exact absurd hmp' hne
    · exact ⟨p', hmem, hmp'⟩

lemma finalize_live (st : SState)
    (h : liveTemps st.ops = st.logo_tmp_files.map TmpName.logoResized) :
    liveTemps (finalize st).ops = [] := by
  unfold finalize
  rw [liveTemps_append, h]
  apply foldl_deletes
  intro m hm
  obtain ⟨p, hp, hmp⟩ := List.mem_map.mp hm
  exact ⟨p, hp, hmp.symm⟩

/-- Live-file invariant of the whole run: on the success path every temp file is
gone; on the failure path exactly the logo temp files created so far are still
on disk (never a per-item QR temp). -/
lemma streamGo_live (cfg : StreamCfg) (rest : List ℤ) :
    ∀ st : SState,
      liveTemps st.ops = st.logo_tmp_files.map TmpName.logoResized →
      (isFailedB (streamGo cfg rest st) = false →
        liveTemps (outState (streamGo cfg rest st)).ops = []) ∧
      (isFailedB (streamGo cfg rest st) = true →
        liveTemps (outState (streamGo cfg rest st)).ops
          = (outState (streamGo cfg rest st)).logo_tmp_files.map TmpName.logoResized) := by
  induction rest with
  | nil =>
    intro st h
    constructor
    · intro _
      simpa [streamGo_nil, outState] using finalize_live st h
    · intro hfail
      rw [streamGo_nil] at hfail
      simp [isFailedB] at hfail
  | cons rid rest ih =>
    intro st h
    by_cases hok : cfg.producerOk rid = true
    · rw [streamGo_cons_ok cfg rid rest st hok]
      apply ih
      apply stepItem_live
      rw [breakCheck_live, (breakCheck_eta st).2.2.2.1]
      exact h
    · have hok' : cfg.producerOk rid = false := by simpa using hok
      rw [streamGo_cons_fail cfg rid rest st hok']
      constructor
      · intro hc
        simp [isFailedB] at hc
      · intro _
        show liveTemps (breakCheck st).ops
          = (breakCheck st).logo_tmp_files.map TmpName.logoResized
        rw [breakCheck_live, (breakCheck_eta st).2.2.2.1]
        exact h

/-! ### Logo-block case equations -/

lemma logoDelta_miss_fail (cfg : StreamCfg) (cache : List (String × ℚ × ℚ)) (x y : ℚ)
    (p : String) (hpath : cfg.center_image_path = some p)
    (hlk : cache.lookup p = none) (hload : cfg.logoLoadOk p = false) :
    logoDelta cfg cache x y = ⟨[], [], [], 0, 0⟩ := by
  unfold logoDelta
  rw [hpath]
  simp [hlk, hload]

lemma logoDelta_miss_ok (cfg : StreamCfg) (cache : List (String × ℚ × ℚ)) (x y : ℚ)
    (p : String) (hpath : cfg.center_image_path = some p)
    (hlk : cache.lookup p = none) (hload : cfg.logoLoadOk p = true) :
    logoDelta cfg cache x y =
      ⟨DrawOp.tmpCreate (.logoResized p) ::
         (if 0 < (cfg.logoSize p).1 then logoDrawOps x y (cfg.logoSize p).1 (cfg.logoSize p).2 else []),
       [(p, cfg.logoSize p)], [p], 1, 0⟩ := by
  unfold logoDelta
  rw [hpath]
  simp [hlk, hload]

lemma logoDelta_hit (cfg : StreamCfg) (cache : List (String × ℚ × ℚ)) (x y : ℚ)
    (p : String) (wh : ℚ × ℚ) (hpath : cfg.center_image_path = some p)
    (hlk : cache.lookup p = some wh) :
    logoDelta cfg cache x y =
      ⟨if 0 < wh.1 then logoDrawOps x y wh.1 wh.2 else [], [], [], 0, 1⟩ := by
  unfold logoDelta
  rw [hpath]
  simp [hlk]

/-! ### C6: failed logo load — every item still drawn, overlay omitted -/

lemma itemOps_counts_noLogo (cfg : StreamCfg) (st : SState) (rid : ℤ) (p : String)
    (hpath : cfg.center_image_path = some p)
    (hlk : st.logo_cache.lookup p = none) (hload : cfg.logoLoadOk p = false) :
    (itemOps cfg st rid).countP isOverlayOp = 0 ∧
    (itemOps cfg st rid).countP isImageOp = 1 ∧
    (itemOps cfg st rid).countP isTextLOp = 1 := by
  simp only [itemOps]
  rw [logoDelta_miss_fail cfg st.logo_cache (qrPosX st.col) (qrPosY st.row) p hpath hlk hload]
  refine ⟨?_, ?_, ?_⟩ <;>
    simp [List.countP_append, List.countP_cons, isOverlayOp, isImageOp, isTextLOp,
      List.countP_nil]

lemma countP_finalize (st : SState) (q : DrawOp → Bool)
    (hq : ∀ n, q (DrawOp.tmpDelete n) = false) :
    (finalize st).ops.countP q = st.ops.countP q := by
  show (st.ops ++ st.logo_tmp_files.map fun r => DrawOp.tmpDelete (.logoResized r)).countP q
    = st.ops.countP q
  rw [List.countP_append]
  have hz : (st.logo_tmp_files.map fun r => DrawOp.tmpDelete (TmpName.logoResized r)).countP q
      = 0 := by
    rw [List.countP_eq_zero]
    intro a ha
    obtain ⟨r, _, hr⟩ := List.mem_map.mp ha
    subst hr
    simp [hq]
  rw [hz]
  omega

/-- With the (single) configured logo path unreadable, the whole render still
succeeds: every item produces exactly one code-image draw and one label text
draw, and no overlay is ever drawn. -/
lemma streamGo_badLogo (cfg : StreamCfg) (rest : List ℤ) (p : String)
    (hpath : cfg.center_image_path = some p) (hload : cfg.logoLoadOk p = false) :
    ∀ st : SState, st.logo_cache.lookup p = none →
      (∀ id ∈ rest, cfg.producerOk id = true) →
      ∃ st', streamGo cfg rest st = .ok st' ∧ st'.saved = true ∧
        st'.draws.length = st.draws.length + rest.length ∧
        st'.ops.countP isOverlayOp = st.ops.countP isOverlayOp ∧
        st'.ops.countP isImageOp = st.ops.countP isImageOp + rest.length ∧
        st'.ops.countP isTextLOp = st.ops.countP isTextLOp + rest.length := by
  induction rest with
  | nil =>
    intro st hlk hp
    refine ⟨finalize st, streamGo_nil cfg st, rfl, by simp [finalize], ?_, ?_, ?_⟩
    · rw [countP_finalize st isOverlayOp (fun n => rfl)]
    · rw [countP_finalize st isImageOp (fun n => rfl)]
      simp
    · rw [countP_finalize st isTextLOp (fun n => rfl)]
      simp
  | cons rid rest ih =>
    intro st hlk hp
    have hok : cfg.producerOk rid = true := hp rid (by simp)
    have hbceta := breakCheck_eta st
    have hblk : (breakCheck st).logo_cache.lookup p = none := by
      rw [hbceta.2.2.1]
      exact hlk
    have hstep_cache : (stepItem cfg (breakCheck st) rid).logo_cache.lookup p = none := by
      rw [stepItem_cache,
        logoDelta_miss_fail cfg _ _ _ p hpath hblk hload]
      simpa using hblk
    obtain ⟨st', hgo, hsv, hlen, ho, hi, ht⟩ :=
      ih (stepItem cfg (breakCheck st) rid) hstep_cache (fun id h => hp id (by simp [h]))
    refine ⟨st', ?_, hsv, ?_, ?_, ?_, ?_⟩
    · rw [streamGo_cons_ok cfg rid rest st hok]
      exact hgo
    · rw [hlen, stepItem_draws, hbceta.1]
      simp
      omega
    · rw [ho, stepItem_ops, List.countP_append,
        (itemOps_counts_noLogo cfg _ rid p hpath hblk hload).1]
      unfold breakCheck
      split <;> simp [List.countP_append, isOverlayOp]
    · rw [hi, stepItem_ops, List.countP_append,
        (itemOps_counts_noLogo cfg _ rid p hpath hblk hload).2.1]
      unfold breakCheck
      split <;> simp [List.countP_append, isImageOp] <;> omega
    · rw [ht, stepItem_ops, List.countP_append,
        (itemOps_counts_noLogo cfg _ rid p hpath hblk hload).2.2]
      unfold breakCheck
      split <;> simp [List.countP_append, isTextLOp] <;> omega

/-! ### C9: logo decoded once, then cache hits -/

lemma streamGo_cached (cfg : StreamCfg) (rest : List ℤ) (p : String) (wh : ℚ × ℚ)
    (hpath : cfg.center_image_path = some p) :
    ∀ st : SState, st.logo_cache.lookup p = some wh →
      (∀ id ∈ rest, cfg.producerOk id = true) →
      ∃ st', streamGo cfg rest st = .ok st' ∧
        st'.decodes = st.decodes ∧
        st'.hits = st.hits + rest.length ∧
        st'.logo_tmp_files = st.logo_tmp_files := by
  induction rest with
  | nil =>
    intro st hlk hp
    exact ⟨finalize st, streamGo_nil cfg st, rfl, by simp [finalize], rfl⟩
  | cons rid rest ih =>
    intro st hlk hp
    have hok : cfg.producerOk rid = true := hp rid (by simp)
    have hbceta := breakCheck_eta st
    have hblk : (breakCheck st).logo_cache.lookup p = some wh := by
      rw [hbceta.2.2.1]
      exact hlk
    have hdelta := logoDelta_hit cfg (breakCheck st).logo_cache
      (qrPosX (breakCheck st).col) (qrPosY (breakCheck st).row) p wh hpath hblk
    have hstep_cache : (stepItem cfg (breakCheck st) rid).logo_cache.lookup p = some wh := by
      rw [stepItem_cache, hdelta]
      simpa using hblk
    obtain ⟨st', hgo, hdec, hhit, htmp⟩ :=
      ih (stepItem cfg (breakCheck st) rid) hstep_cache (fun id h => hp id (by simp [h]))
    refine ⟨st', ?_, ?_, ?_, ?_⟩
    · rw [streamGo_cons_ok cfg rid rest st hok]
      exact hgo
    · rw [hdec, stepItem_decodes, hdelta, hbceta.2.2.2.2.1]
      simp
    · rw [hhit, stepItem_hits, hdelta, hbceta.2.2.2.2.2]
      simp
      omega
    · rw [htmp, stepItem_tmps, hdelta, hbceta.2.2.2.1]
      simp

/-! ### Auto-grid geometry facts -/

lemma resolveCols_bounds (c : ℤ) : 4 ≤ resolveCols c ∧ resolveCols c ≤ 8 := by
  unfold resolveCols
  split
  · rename_i h
    rcases h with h | h | h | h | h <;> subst h <;> simp
  · simp

lemma resolveCols_invalid (c : ℤ)
    (h : ¬(c = 4 ∨ c = 5 ∨ c = 6 ∨ c = 7 ∨ c = 8)) : resolveCols c = 4 := by
  unfold resolveCols
  rw [if_neg h]

lemma cell_width_pos (c : ℤ) : 0 < cell_width c := by
  unfold cell_width
  apply div_pos
  · norm_num [page_width, margin_x]
  · have h := (resolveCols_bounds c).1
    exact_mod_cast Nat.lt_of_lt_of_le (by norm_num) h

lemma cell_height_pos (c : ℤ) : 0 < cell_height c := by
  have := cell_width_pos c
  unfold cell_height auto_label_height
  linarith

lemma cell_width_le (c : ℤ) : cell_width c ≤ (page_width - margin_x * 2) / 4 := by
  unfold cell_width
  have h4 := (resolveCols_bounds c).1
  have hnum : (0:ℚ) ≤ page_width - margin_x * 2 := by norm_num [page_width, margin_x]
  have h4' : (4:ℚ) ≤ (resolveCols c : ℚ) := by exact_mod_cast h4
  exact div_le_div_of_nonneg_left hnum (by norm_num) h4' |>.trans_eq rfl

lemma cell_height_le_bound (c : ℤ) : cell_height c ≤ auto_bound := by
  have h := cell_width_le c
  unfold cell_height auto_label_height auto_bound
  have : (page_width - margin_x * 2) / 4 + 16 ≤ page_height - 2 * margin_y := by
    norm_num [page_width, page_height, margin_x, margin_y]
  linarith

/-- The page-break bound kept by the loop implies the floor-derived row bound. -/
lemma row_lt_auto_rows (c : ℤ) (r : ℕ)
    (h : ((r : ℚ) + 1) * cell_height c ≤ auto_bound) : r < auto_rows_per_page c := by
  have hH := cell_height_pos c
  have h1 : ((r : ℚ) + 1) ≤ auto_bound / cell_height c := by
    rw [le_div_iff₀ hH]
    exact h
  have h2 : ((r : ℤ) + 1 : ℤ) ≤ ⌊auto_bound / cell_height c⌋ := by
    rw [Int.le_floor]
    push_cast
    exact h1
  unfold auto_rows_per_page
  omega

/-! ### Auto-grid loop invariants -/

lemma autoAdvance_eta (c : ℤ) (st : AState) :
    (autoAdvance c st).draws = st.draws ∧ (autoAdvance c st).saved = st.saved ∧
    (autoAdvance c st).logo_cache = st.logo_cache := by
  unfold autoAdvance
  split
  · split <;> exact ⟨rfl, rfl, rfl⟩
  · exact ⟨rfl, rfl, rfl⟩

lemma autoAdvance_ops_mono (c : ℤ) (st : AState) (op : DrawOp) (h : op ∈ st.ops) :
    op ∈ (autoAdvance c st).ops := by
  unfold autoAdvance
  split
  · split
    · exact List.mem_append_left _ h
    · exact h
  · exact h

lemma autoAdvance_inv (c : ℤ) (st : AState)
    (hcol : st.col < resolveCols c)
    (hrow : ((st.row : ℚ) + 1) * cell_height c ≤ auto_bound) :
    (autoAdvance c st).col < resolveCols c ∧
    (((autoAdvance c st).row : ℚ) + 1) * cell_height c ≤ auto_bound := by
  have h4 := (resolveCols_bounds c).1
  have hH := cell_height_le_bound c
  unfold autoAdvance
  split
  · split
    · refine ⟨?_, ?_⟩ <;> dsimp only
      · omega
      · push_cast
        linarith
    · rename_i hnb
      push_neg at hnb
      refine ⟨?_, ?_⟩ <;> dsimp only
      · omega
      · push_cast
        linarith
  · refine ⟨?_, ?_⟩ <;> dsimp only
    · omega
    · exact hrow

lemma stepAuto_draws (cfg : ACfg) (st : AState) (it : AGItem) :
    (stepAuto cfg st it).draws = st.draws ++ [AutoDraw.mk st.row st.col it.label] := by
  unfold stepAuto
  rw [(autoAdvance_eta _ _).1]

lemma stepAuto_saved (cfg : ACfg) (st : AState) (it : AGItem) :
    (stepAuto cfg st it).saved = st.saved := by
  unfold stepAuto
  rw [(autoAdvance_eta _ _).2.1]

lemma stepAuto_inv (cfg : ACfg) (st : AState) (it : AGItem)
    (hcol : st.col < resolveCols cfg.cols_env)
    (hrow : ((st.row : ℚ) + 1) * cell_height cfg.cols_env ≤ auto_bound) :
    (stepAuto cfg st it).col < resolveCols cfg.cols_env ∧
    (((stepAuto cfg st it).row : ℚ) + 1) * cell_height cfg.cols_env ≤ auto_bound := by
  unfold stepAuto
  exact autoAdvance_inv cfg.cols_env _ hcol hrow

lemma stepAuto_ops_mono (cfg : ACfg) (st : AState) (it : AGItem) (op : DrawOp)
    (h : op ∈ st.ops) : op ∈ (stepAuto cfg st it).ops := by
  unfold stepAuto
  apply autoAdvance_ops_mono
  exact List.mem_append_left _ h

lemma stepAuto_textC (cfg : ACfg) (st : AState) (it : AGItem) (s : String)
    (h : it.label = some s) :
    DrawOp.textC (auto_x cfg.cols_env st.col + cell_width cfg.cols_env / 2)
        (auto_y cfg.cols_env st.row - 4) 8 s ∈ (stepAuto cfg st it).ops := by
  unfold stepAuto
  apply autoAdvance_ops_mono
  apply List.mem_append_right
  apply List.mem_append_right
  rw [h]
  simp

/-- Every auto-grid draw record is in bounds (column below the resolved column
count, row below the derived rows-per-page), and a labelled item's
`drawCentredString` op — Helvetica 8, centered on the cell — is on the canvas. -/
lemma autoGo_pointwise (cfg : ACfg) (items : List AGItem) :
    ∀ st : AState,
      st.col < resolveCols cfg.cols_env →
      ((st.row : ℚ) + 1) * cell_height cfg.cols_env ≤ auto_bound →
      (∀ d ∈ st.draws, d.col < resolveCols cfg.cols_env ∧ d.row < auto_rows_per_page cfg.cols_env ∧
        (∀ s, d.label = some s →
          DrawOp.textC (auto_x cfg.cols_env d.col + cell_width cfg.cols_env / 2)
            (auto_y cfg.cols_env d.row - 4) 8 s ∈ st.ops)) →
      ∀ d ∈ (autoGo cfg items st).draws,
        d.col < resolveCols cfg.cols_env ∧ d.row < auto_rows_per_page cfg.cols_env ∧
        (∀ s, d.label = some s →
          DrawOp.textC (auto_x cfg.cols_env d.col + cell_width cfg.cols_env / 2)
            (auto_y cfg.cols_env d.row - 4) 8 s ∈ (autoGo cfg items st).ops) := by
  induction items with
  | nil =>
    intro st hcol hrow hinv d hd
    have hd' : d ∈ st.draws := by simpa [autoGo] using hd
    obtain ⟨h1, h2, h3⟩ := hinv d hd'
    exact ⟨h1, h2, fun s hs => by simpa [autoGo] using h3 s hs⟩
  | cons it rest ih =>
    intro st hcol hrow hinv d hd
    show _ ∧ _ ∧ ∀ s, d.label = some s →
      _ ∈ (autoGo cfg rest (stepAuto cfg st it)).ops
    refine ih (stepAuto cfg st it) (stepAuto_inv cfg st it hcol hrow).1
      (stepAuto_inv cfg st it hcol hrow).2 ?_ d hd
    intro e he
    rw [stepAuto_draws] at he
    rcases List.mem_append.mp he with hold | hnew
    · obtain ⟨h1, h2, h3⟩ := hinv e hold
      exact ⟨h1, h2, fun s hs => stepAuto_ops_mono cfg st it _ (h3 s hs)⟩
    · have he' : e = AutoDraw.mk st.row st.col it.label := by simpa using hnew
      subst he'
      refine ⟨hcol, row_lt_auto_rows _ _ hrow, ?_⟩
      intro s hs
      exact stepAuto_textC cfg st it s hs

/-! ### Claim theorems -/

/-- C1: In the streaming (StickerGrid) layout, `itemsPerPage = columnsPerPage *
rowsPerPage = 7 * 10 = 70` and the item at 0-based input index `N` is drawn, in
strict input order, at column `N % 7` and row `(N % 70) / 7` — i.e. cell index
`N % 70` of 0-based page `N / 70`, which the source numbers `N / 70 + 1`.  70
items leave the final page counter at 1 (exactly one page is committed by
`c.save()`), and 71 items leave it at 2, with item 71 (0-based index 70) drawn
at page 2, row 0, col 0. -/
theorem C1_order_and_pagination (cfg : StreamCfg) (ids : List ℤ)
    (hp : ∀ id ∈ ids, cfg.producerOk id = true) :
    items_per_page = 70 ∧
    (outState (layout_qrs_to_pdf_streaming cfg ids)).draws.length = ids.length ∧
    (∀ N, N < ids.length →
      (drawAt (layout_qrs_to_pdf_streaming cfg ids) N).col = N % cols_per_page ∧
      (drawAt (layout_qrs_to_pdf_streaming cfg ids) N).row
        = (N % items_per_page) / cols_per_page ∧
      (drawAt (layout_qrs_to_pdf_streaming cfg ids) N).row * cols_per_page
          + (drawAt (layout_qrs_to_pdf_streaming cfg ids) N).col = N % items_per_page ∧
      (drawAt (layout_qrs_to_pdf_streaming cfg ids) N).page = N / items_per_page + 1 ∧
      (drawAt (layout_qrs_to_pdf_streaming cfg ids) N).record_id = ids.getD N 0) ∧
    (ids.length = 70 → (outState (layout_qrs_to_pdf_streaming cfg ids)).page_num = 1) ∧
    (ids.length = 71 → (outState (layout_qrs_to_pdf_streaming cfg ids)).page_num = 2 ∧
      (drawAt (layout_qrs_to_pdf_streaming cfg ids) 70).page = 2 ∧
      (drawAt (layout_qrs_to_pdf_streaming cfg ids) 70).row = 0 ∧
      (drawAt (layout_qrs_to_pdf_streaming cfg ids) 70).col = 0) := by
  obtain ⟨st', hgo, hsaved, hlen, hpage, hpre, hidx⟩ :=
    streamGo_master cfg ids initState 0 hp (by decide) (by decide) (by decide) (by decide)
  have hout : layout_qrs_to_pdf_streaming cfg ids = .ok st' := hgo
  have houts : outState (layout_qrs_to_pdf_streaming cfg ids) = st' := by
    rw [hout]
    rfl
  have hdr : ∀ N, drawAt (layout_qrs_to_pdf_streaming cfg ids) N
      = st'.draws.getD N dfltDraw := by
    intro N
    unfold drawAt
    rw [houts]
  refine ⟨by decide, ?_, ?_, ?_, ?_⟩
  · rw [houts, hlen]
    omega
  · intro N hN
    obtain ⟨hpg, hrw, hcl, hrid⟩ := hidx N (by omega) (by omega)
    rw [hdr]
    simp only [cols_per_page, items_per_page, rows_per_page]
    refine ⟨?_, ?_, ?_, ?_, ?_⟩
    · exact hcl
    · exact hrw
    · rw [hrw, hcl]
      omega
    · exact hpg
    · rw [hrid]
      simp
  · intro h70
    rw [houts, hpage, h70]
  · intro h71
    obtain ⟨hpg, hrw, hcl, _⟩ := hidx 70 (by omega) (by omega)
    rw [houts, hpage, h71, hdr]
    exact ⟨rfl, hpg, hrw, hcl⟩

/-- A 71-element id list 0..70. -/
def ids71 : List ℤ := (List.range 71).map Int.ofNat

/-- C1 witness: a 71-item run with an always-succeeding producer has its 71st
item on page 2, row 0, col 0, and two pages in total. -/
theorem C1_order_and_pagination_witness :
    (outState (layout_qrs_to_pdf_streaming noLogoCfg ids71)).page_num = 2 ∧
    (drawAt (layout_qrs_to_pdf_streaming noLogoCfg ids71) 70).page = 2 ∧
    (drawAt (layout_qrs_to_pdf_streaming noLogoCfg ids71) 70).row = 0 ∧
    (drawAt (layout_qrs_to_pdf_streaming noLogoCfg ids71) 70).col = 0 := by
  have h := C1_order_and_pagination noLogoCfg ids71 (fun _ _ => rfl)
  exact h.2.2.2.2 (by rw [ids71, List.length_map, List.length_range])

/-- C2: At the moment an item is drawn the cursor is in bounds in both modes
(`col < columnsPerPage` and `row < rowsPerPage` for the sticker grid;
`col < resolvedCols` and `row < autoRowsPerPage` for the auto grid); in the
streaming mode a full row count forces the page break — `row = 0`, `col = 0`,
`page += 1` — before the item is drawn, never after. -/
theorem C2_cursor_bounds :
    (∀ (cfg : StreamCfg) (ids : List ℤ) (n : ℕ),
       n < (outState (layout_qrs_to_pdf_streaming cfg ids)).draws.length →
       (drawAt (layout_qrs_to_pdf_streaming cfg ids) n).col < cols_per_page ∧
       (drawAt (layout_qrs_to_pdf_streaming cfg ids) n).row < rows_per_page) ∧
    (∀ st : SState, rows_per_page ≤ st.row →
       breakCheck st = { st with ops := st.ops ++ [DrawOp.showPage], row := 0, col := 0,
                                 page_num := st.page_num + 1 }) ∧
    (∀ st : SState, st.row < rows_per_page → breakCheck st = st) ∧
    (∀ (cfg : StreamCfg) (rid : ℤ) (rest : List ℤ) (st : SState),
       cfg.producerOk rid = true →
       streamGo cfg (rid :: rest) st = streamGo cfg rest (stepItem cfg (breakCheck st) rid)) ∧
    (∀ (acfg : ACfg) (items : List AGItem) (m : ℕ),
       m < (layout_qrs_to_pdf acfg items).draws.length →
       (autoDrawAt (layout_qrs_to_pdf acfg items) m).col < resolveCols acfg.cols_env ∧
       (autoDrawAt (layout_qrs_to_pdf acfg items) m).row < auto_rows_per_page acfg.cols_env) := by
  refine ⟨?_, breakCheck_of_ge, breakCheck_of_lt, streamGo_cons_ok, ?_⟩
  · intro cfg ids n hn
    have hmem := getD_mem _ n dfltDraw hn
    have h := streamGo_pointwise cfg ids initState (by decide) (by intro d hd; cases hd)
      (drawAt (layout_qrs_to_pdf_streaming cfg ids) n) hmem
    exact ⟨h.1.1, h.1.2.1⟩
  · intro acfg items m hm
    have hmem := getD_mem _ m dfltAutoDraw hm
    have h := autoGo_pointwise acfg items initAuto
      (by have := (resolveCols_bounds acfg.cols_env).1; show (0:ℕ) < _; omega)
      (by simpa [initAuto] using cell_height_le_bound acfg.cols_env)
      (by intro d hd; cases hd)
      (autoDrawAt (layout_qrs_to_pdf acfg items) m) hmem
    exact ⟨h.1, h.2.1⟩

/-- C2 witness: the theorem applied at a one-item streaming run, a state with a
full row, a state mid-page, a one-step unfold, and a one-item auto-grid run. -/
theorem C2_cursor_bounds_witness :
    ((drawAt (layout_qrs_to_pdf_streaming noLogoCfg [5]) 0).col < cols_per_page ∧
     (drawAt (layout_qrs_to_pdf_streaming noLogoCfg [5]) 0).row < rows_per_page) ∧
    breakCheck { initState with row := 10 }
      = { initState with row := 0, col := 0, page_num := 2, ops := [DrawOp.showPage] } ∧
    breakCheck initState = initState ∧
    streamGo noLogoCfg [3] initState
      = streamGo noLogoCfg [] (stepItem noLogoCfg (breakCheck initState) 3) ∧
    ((autoDrawAt (layout_qrs_to_pdf autoCfg4 [AGItem.mk (some "A") none]) 0).col
        < resolveCols autoCfg4.cols_env ∧
     (autoDrawAt (layout_qrs_to_pdf autoCfg4 [AGItem.mk (some "A") none]) 0).row
        < auto_rows_per_page autoCfg4.cols_env) := by
  refine ⟨C2_cursor_bounds.1 noLogoCfg [5] 0 (by decide), ?_, ?_, ?_, ?_⟩
  · have h := C2_cursor_bounds.2.1 { initState with row := 10 } (by decide)
    rw [h]
    rfl
  · exact C2_cursor_bounds.2.2.1 initState (by decide)
  · exact C2_cursor_bounds.2.2.2.1 noLogoCfg 3 [] initState rfl
  · exact C2_cursor_bounds.2.2.2.2 autoCfg4 [AGItem.mk (some "A") none] 0 (by decide)

/-- C3 counterexample: at the `generate_qr_pdf` level — the lines the claim
cites — rendering with zero input items IS an error: an empty `record_ids` list
raises `ValueError("record_ids is required.")` inside `_fetch_ids`, and an empty
fetched id list raises before the layout runs, so no saved document is produced
for zero items. -/
theorem C3_empty_is_error_cex :
    generate_qr_pdf noLogoCfg [] [] = .error "record_ids is required." ∧
    generate_qr_pdf noLogoCfg [1] []
      = .error "QR を作成する対象レコードが存在しません。" := ⟨rfl, rfl⟩

/-- C3 (amended): the streaming layout routine itself treats an empty item list
as valid — it finalizes (saves) a document with zero drawn elements and does not
raise — but the enclosing `generate_qr_pdf` rejects an empty id list with
`ValueError` before the layout runs, so at that level zero items is an error. -/
theorem C3_empty_render (cfg : StreamCfg) :
    isSavedB (layout_qrs_to_pdf_streaming cfg []) = true ∧
    (outState (layout_qrs_to_pdf_streaming cfg [])).ops = [] ∧
    (outState (layout_qrs_to_pdf_streaming cfg [])).draws = [] ∧
    isFailedB (layout_qrs_to_pdf_streaming cfg []) = false :=
  ⟨rfl, rfl, rfl, rfl⟩

/-- C4 (amended): each per-item temporary file is created, drawn from, and
unlinked within its own item — the create / draw-image / delete ops are adjacent
— so no per-item temp file survives an item on any path; on the success path the
final cleanup also removes the logo cache's temp files, leaving nothing live;
but on a raised failure mid-stream exactly the logo temp files created so far
remain on disk (the cleanup loop runs only after `c.save()`). -/
theorem C4_temp_lifecycle :
    (∀ (cfg : StreamCfg) (st : SState) (rid : ℤ), ∃ post,
       itemOps cfg st rid =
         [DrawOp.rect (stickerX st.col) (stickerYBottom st.row) sticker_size sticker_size] ++
           [DrawOp.tmpCreate (.qrTmp st.page_num st.row st.col),
            DrawOp.image (qrPosX st.col) (qrPosY st.row) qr_size qr_size,
            DrawOp.tmpDelete (.qrTmp st.page_num st.row st.col)] ++ post ∧
       (stepItem cfg st rid).ops = st.ops ++ itemOps cfg st rid) ∧
    (∀ (cfg : StreamCfg) (ids : List ℤ),
       isFailedB (layout_qrs_to_pdf_streaming cfg ids) = false →
       liveTemps (outState (layout_qrs_to_pdf_streaming cfg ids)).ops = []) ∧
    (∀ (cfg : StreamCfg) (ids : List ℤ),
       isFailedB (layout_qrs_to_pdf_streaming cfg ids) = true →
       liveTemps (outState (layout_qrs_to_pdf_streaming cfg ids)).ops
         = (outState (layout_qrs_to_pdf_streaming cfg ids)).logo_tmp_files.map
             TmpName.logoResized) := by
  refine ⟨?_, ?_, ?_⟩
  · intro cfg st rid
    refine ⟨(logoDelta cfg st.logo_cache (qrPosX st.col) (qrPosY st.row)).ops ++
      [DrawOp.textL (mkDraw cfg st rid).label_x (mkDraw cfg st rid).label_y 6
        (labelFor cfg.product_codes rid)], ?_, stepItem_ops cfg st rid⟩
    simp [itemOps]
  · intro cfg ids
    exact (streamGo_live cfg ids initState rfl).1
  · intro cfg ids
    exact (streamGo_live cfg ids initState rfl).2

/-- C4 counterexample: a two-item run whose second producer call raises, with a
logo configured, aborts unsaved with the logo's temporary file still on disk —
the claim that all temporary resources are released on the error path is false
of the code. -/
theorem C4_error_path_leak_cex :
    isFailedB (layout_qrs_to_pdf_streaming failSecondCfg [1, 2]) = true ∧
    liveTemps (outState (layout_qrs_to_pdf_streaming failSecondCfg [1, 2])).ops
      = [TmpName.logoResized "assets/minato_qr_logo.png"] ∧
    liveTemps (outState (layout_qrs_to_pdf_streaming failSecondCfg [1, 2])).ops ≠ [] ∧
    isSavedB (layout_qrs_to_pdf_streaming failSecondCfg [1, 2]) = false := by
  refine ⟨rfl, by decide, by decide, rfl⟩

/-- C4 witness: a successful one-item run with a logo ends with no live
temporary file, and the per-item ops of a step have the adjacent
create / draw / delete triple. -/
theorem C4_temp_lifecycle_witness :
    liveTemps (outState (layout_qrs_to_pdf_streaming logoCfg [1])).ops = [] ∧
    (∃ post, itemOps logoCfg initState 1 =
       [DrawOp.rect (stickerX initState.col) (stickerYBottom initState.row)
          sticker_size sticker_size] ++
         [DrawOp.tmpCreate (.qrTmp initState.page_num initState.row initState.col),
          DrawOp.image (qrPosX initState.col) (qrPosY initState.row) qr_size qr_size,
          DrawOp.tmpDelete (.qrTmp initState.page_num initState.row initState.col)] ++ post ∧
       (stepItem logoCfg initState 1).ops = initState.ops ++ itemOps logoCfg initState 1) := by
  refine ⟨C4_temp_lifecycle.2.1 logoCfg [1] (by decide), C4_temp_lifecycle.1 logoCfg initState 1⟩

/-- C5: if producing the raster image for any single item raises, the whole
render fails and `c.save()` is never reached: the outcome is a failure and the
sink is unsaved — no partial document is returned. -/
theorem C5_producer_failure_fatal (cfg : StreamCfg) (ids : List ℤ)
    (h : ∃ id ∈ ids, cfg.producerOk id = false) :
    isFailedB (layout_qrs_to_pdf_streaming cfg ids) = true ∧
    isSavedB (layout_qrs_to_pdf_streaming cfg ids) = false :=
  streamGo_fail cfg ids initState rfl h

/-- C5 witness: a run whose only item's producer raises is a failure with the
sink unsaved. -/
theorem C5_producer_failure_fatal_witness :
    isFailedB (layout_qrs_to_pdf_streaming failCfg [7]) = true ∧
    isSavedB (layout_qrs_to_pdf_streaming failCfg [7]) = false :=
  C5_producer_failure_fatal failCfg [7] ⟨7, by decide, rfl⟩

/-- C6: when the configured overlay path cannot be read (the load raises for
every attempt), no item raises: the render still saves, every item's code image
and label are drawn (one `drawImage` and one `drawString` per item), and no
overlay is ever drawn. -/
theorem C6_overlay_failure_nonfatal (cfg : StreamCfg) (ids : List ℤ) (p : String)
    (hpath : cfg.center_image_path = some p) (hload : cfg.logoLoadOk p = false)
    (hp : ∀ id ∈ ids, cfg.producerOk id = true) :
    isFailedB (layout_qrs_to_pdf_streaming cfg ids) = false ∧
    isSavedB (layout_qrs_to_pdf_streaming cfg ids) = true ∧
    (outState (layout_qrs_to_pdf_streaming cfg ids)).draws.length = ids.length ∧
    (outState (layout_qrs_to_pdf_streaming cfg ids)).ops.countP isImageOp = ids.length ∧
    (outState (layout_qrs_to_pdf_streaming cfg ids)).ops.countP isTextLOp = ids.length ∧
    (outState (layout_qrs_to_pdf_streaming cfg ids)).ops.countP isOverlayOp = 0 := by
  obtain ⟨st', hgo, hsv, hlen, ho, hi, ht⟩ :=
    streamGo_badLogo cfg ids p hpath hload initState rfl hp
  have hout : layout_qrs_to_pdf_streaming cfg ids = .ok st' := hgo
  rw [hout]
  refine ⟨rfl, hsv, ?_, ?_, ?_, ?_⟩
  · rw [show outState (Outcome.ok st') = st' from rfl, hlen]
    simp [initState]
  · rw [show outState (Outcome.ok st') = st' from rfl, hi]
    simp [initState]
  · rw [show outState (Outcome.ok st') = st' from rfl, ht]
    simp [initState]
  · rw [show outState (Outcome.ok st') = st' from rfl, ho]
    simp [initState]

/-- C6 witness: a two-item run whose logo path always fails to load saves fine,
with two code images, two labels and zero overlays. -/
theorem C6_overlay_failure_nonfatal_witness :
    isFailedB (layout_qrs_to_pdf_streaming badLogoCfg [1, 2]) = false ∧
    isSavedB (layout_qrs_to_pdf_streaming badLogoCfg [1, 2]) = true ∧
    (outState (layout_qrs_to_pdf_streaming badLogoCfg [1, 2])).draws.length
      = [(1 : ℤ), 2].length ∧
    (outState (layout_qrs_to_pdf_streaming badLogoCfg [1, 2])).ops.countP isImageOp
      = [(1 : ℤ), 2].length ∧
    (outState (layout_qrs_to_pdf_streaming badLogoCfg [1, 2])).ops.countP isTextLOp
      = [(1 : ℤ), 2].length ∧
    (outState (layout_qrs_to_pdf_streaming badLogoCfg [1, 2])).ops.countP isOverlayOp = 0 :=
  C6_overlay_failure_nonfatal badLogoCfg [1, 2] "assets/minato_qr_logo.png" rfl rfl
    (fun _ _ => rfl)

/-- C7 counterexample: the StickerGrid label is NOT left-aligned within the
sticker's label band — for a one-item run (label text width 10) the `drawString`
x is `sticker_x + (sticker_size - width) / 2 = 1770869/20000`, not the band's
left edge `sticker_x = 1303939/20000`; the text's horizontal center coincides
with the sticker's center, i.e. the label is centered. -/
theorem C7_sticker_label_centered_cex :
    (drawAt (layout_qrs_to_pdf_streaming noLogoCfg [1]) 0).sticker_x = 1303939 / 20000 ∧
    (drawAt (layout_qrs_to_pdf_streaming noLogoCfg [1]) 0).label_x = 1770869 / 20000 ∧
    (drawAt (layout_qrs_to_pdf_streaming noLogoCfg [1]) 0).label_x
      ≠ (drawAt (layout_qrs_to_pdf_streaming noLogoCfg [1]) 0).sticker_x ∧
    (drawAt (layout_qrs_to_pdf_streaming noLogoCfg [1]) 0).label_x
        + (drawAt (layout_qrs_to_pdf_streaming noLogoCfg [1]) 0).label_w / 2
      = (drawAt (layout_qrs_to_pdf_streaming noLogoCfg [1]) 0).sticker_x
          + sticker_size / 2 := by
  have hdr : drawAt (layout_qrs_to_pdf_streaming noLogoCfg [1]) 0
      = mkDraw noLogoCfg initState 1 := rfl
  rw [hdr]
  refine ⟨?_, ?_, ?_, ?_⟩ <;>
    simp [mkDraw, stickerX, stickerYBottom, left_margin, sticker_size, qr_size, gap,
      sticker_spacing_x, sticker_spacing_y, MM_TO_PT, noLogoCfg, labelFor, initState,
      page_height, top_margin] <;>
    norm_num

/-- C7 (amended): every item carrying a label has it drawn at a fixed small font
size, centered: in AutoGrid via `drawCentredString` at Helvetica 8 on the cell's
horizontal center, and in StickerGrid via `drawString` at Helvetica 6 at an x
chosen so the text's center coincides with the sticker's center (not
left-aligned). -/
theorem C7_label_rendering :
    (∀ (cfg : StreamCfg) (ids : List ℤ) (n : ℕ),
       n < (outState (layout_qrs_to_pdf_streaming cfg ids)).draws.length →
       (drawAt (layout_qrs_to_pdf_streaming cfg ids) n).label_x
           + (drawAt (layout_qrs_to_pdf_streaming cfg ids) n).label_w / 2
         = (drawAt (layout_qrs_to_pdf_streaming cfg ids) n).sticker_x + sticker_size / 2 ∧
       labelOpOf cfg (drawAt (layout_qrs_to_pdf_streaming cfg ids) n)
         ∈ (outState (layout_qrs_to_pdf_streaming cfg ids)).ops) ∧
    (∀ (acfg : ACfg) (items : List AGItem) (m : ℕ) (s : String),
       m < (layout_qrs_to_pdf acfg items).draws.length →
       (autoDrawAt (layout_qrs_to_pdf acfg items) m).label = some s →
       DrawOp.textC
           (auto_x acfg.cols_env (autoDrawAt (layout_qrs_to_pdf acfg items) m).col
             + cell_width acfg.cols_env / 2)
           (auto_y acfg.cols_env (autoDrawAt (layout_qrs_to_pdf acfg items) m).row - 4) 8 s
         ∈ (layout_qrs_to_pdf acfg items).ops) := by
  constructor
  · intro cfg ids n hn
    have hmem := getD_mem _ n dfltDraw hn
    have h := streamGo_pointwise cfg ids initState (by decide) (by intro d hd; cases hd)
      (drawAt (layout_qrs_to_pdf_streaming cfg ids) n) hmem
    obtain ⟨⟨_, _, _, _, _, hx, _⟩, hop⟩ := h
    refine ⟨?_, hop⟩
    rw [hx]
    ring
  · intro acfg items m s hm hs
    have hmem := getD_mem _ m dfltAutoDraw hm
    have h := autoGo_pointwise acfg items initAuto
      (by have := (resolveCols_bounds acfg.cols_env).1; show (0:ℕ) < _; omega)
      (by simpa [initAuto] using cell_height_le_bound acfg.cols_env)
      (by intro d hd; cases hd)
      (autoDrawAt (layout_qrs_to_pdf acfg items) m) hmem
    exact h.2.2 s hs

/-- C7 witness: the theorem applied at a one-item streaming run and a one-item
auto-grid run with label "AB". -/
theorem C7_label_rendering_witness :
    ((drawAt (layout_qrs_to_pdf_streaming noLogoCfg [2]) 0).label_x
         + (drawAt (layout_qrs_to_pdf_streaming noLogoCfg [2]) 0).label_w / 2
       = (drawAt (layout_qrs_to_pdf_streaming noLogoCfg [2]) 0).sticker_x
           + sticker_size / 2 ∧
     labelOpOf noLogoCfg (drawAt (layout_qrs_to_pdf_streaming noLogoCfg [2]) 0)
       ∈ (outState (layout_qrs_to_pdf_streaming noLogoCfg [2])).ops) ∧
    DrawOp.textC
        (auto_x autoCfg4.cols_env
            (autoDrawAt (layout_qrs_to_pdf autoCfg4 [AGItem.mk (some "AB") none]) 0).col
          + cell_width autoCfg4.cols_env / 2)
        (auto_y autoCfg4.cols_env
            (autoDrawAt (layout_qrs_to_pdf autoCfg4 [AGItem.mk (some "AB") none]) 0).row - 4)
        8 "AB"
      ∈ (layout_qrs_to_pdf autoCfg4 [AGItem.mk (some "AB") none]).ops := by
  refine ⟨C7_label_rendering.1 noLogoCfg [2] 0 (by decide),
    C7_label_rendering.2 autoCfg4 [AGItem.mk (some "AB") none] 0 "AB" (by decide) (by decide)⟩

/-- C8: in AutoGrid mode any configured `columnsPerRow` outside `{4,5,6,7,8}`
silently falls back to 4, the resolved geometry satisfies
`cellWidth = (pageWidth - 2*marginX) / columnsPerRow` and
`cellHeight = cellWidth + labelStripHeight`, and in particular
`columnsPerRow = 9` resolves to exactly the geometry of `columnsPerRow = 4`. -/
theorem C8_auto_cols_fallback :
    (∀ c : ℤ, c ≠ 4 → c ≠ 5 → c ≠ 6 → c ≠ 7 → c ≠ 8 →
       resolveCols c = 4 ∧ cell_width c = cell_width 4 ∧ cell_height c = cell_height 4 ∧
       auto_rows_per_page c = auto_rows_per_page 4) ∧
    (∀ c : ℤ, cell_width c = (page_width - 2 * margin_x) / (resolveCols c : ℚ) ∧
       cell_height c = cell_width c + auto_label_height) ∧
    resolveCols 9 = 4 ∧ cell_width 9 = cell_width 4 ∧ cell_height 9 = cell_height 4 ∧
    auto_rows_per_page 9 = auto_rows_per_page 4 := by
  have hgeom : ∀ c : ℤ, resolveCols c = 4 →
      cell_width c = cell_width 4 ∧ cell_height c = cell_height 4 ∧
      auto_rows_per_page c = auto_rows_per_page 4 := by
    intro c hc
    have hw : cell_width c = cell_width 4 := by
      have h44 : resolveCols 4 = 4 := by decide
      unfold cell_width
      rw [hc, h44]
    have hh : cell_height c = cell_height 4 := by
      unfold cell_height
      rw [hw]
    have hr : auto_rows_per_page c = auto_rows_per_page 4 := by
      unfold auto_rows_per_page
      rw [hh]
    exact ⟨hw, hh, hr⟩
  refine ⟨?_, ?_, by decide, (hgeom 9 (by decide)).1, (hgeom 9 (by decide)).2.1,
    (hgeom 9 (by decide)).2.2⟩
  · intro c h4 h5 h6 h7 h8
    have hc : resolveCols c = 4 := resolveCols_invalid c (by tauto)
    exact ⟨hc, (hgeom c hc).1, (hgeom c hc).2.1, (hgeom c hc).2.2⟩
  · intro c
    constructor
    · unfold cell_width
      ring_nf
    · rfl

/-- C8 witness: the fallback applied at the invalid value 9. -/
theorem C8_auto_cols_fallback_witness :
    resolveCols 9 = 4 ∧ cell_width 9 = cell_width 4 ∧ cell_height 9 = cell_height 4 ∧
    auto_rows_per_page 9 = auto_rows_per_page 4 :=
  C8_auto_cols_fallback.1 9 (by decide) (by decide) (by decide) (by decide) (by decide)

/-- C9: with a readable logo path configured and every producer call succeeding,
a render of N ≥ 1 items decodes, resizes and persists the overlay exactly once —
one decode, one logo temp file keyed by the source path — and the remaining
N − 1 uses are cache hits resolved from the path-keyed cache. -/
theorem C9_logo_cache_single_decode (cfg : StreamCfg) (ids : List ℤ) (p : String)
    (hpath : cfg.center_image_path = some p) (hload : cfg.logoLoadOk p = true)
    (hp : ∀ id ∈ ids, cfg.producerOk id = true) (hne : ids ≠ []) :
    (outState (layout_qrs_to_pdf_streaming cfg ids)).decodes = 1 ∧
    (outState (layout_qrs_to_pdf_streaming cfg ids)).hits = ids.length - 1 ∧
    (outState (layout_qrs_to_pdf_streaming cfg ids)).logo_tmp_files = [p] ∧
    isFailedB (layout_qrs_to_pdf_streaming cfg ids) = false := by
  cases ids with
  | nil => cases hne rfl
  | cons rid rest =>
    have hok : cfg.producerOk rid = true := hp rid (by simp)
    have hb : breakCheck initState = initState :=
      breakCheck_of_lt initState (by decide)
    have hdelta := logoDelta_miss_ok cfg initState.logo_cache (qrPosX initState.col)
      (qrPosY initState.row) p hpath rfl hload
    have h1cache : (stepItem cfg initState rid).logo_cache.lookup p
        = some (cfg.logoSize p) := by
      rw [stepItem_cache, hdelta]
      simp [initState, List.lookup]
    have h1dec : (stepItem cfg initState rid).decodes = 1 := by
      rw [stepItem_decodes, hdelta]
      simp [initState]
    have h1hits : (stepItem cfg initState rid).hits = 0 := by
      rw [stepItem_hits, hdelta]
      simp [initState]
    have h1tmp : (stepItem cfg initState rid).logo_tmp_files = [p] := by
      rw [stepItem_tmps, hdelta]
      rfl
    obtain ⟨st', hgo, hdec, hhits, htmp⟩ :=
      streamGo_cached cfg rest p (cfg.logoSize p) hpath (stepItem cfg initState rid)
        h1cache (fun id h => hp id (by simp [h]))
    have hout : layout_qrs_to_pdf_streaming cfg (rid :: rest) = .ok st' := by
      show streamGo cfg (rid :: rest) initState = .ok st'
      rw [streamGo_cons_ok cfg rid rest initState hok, hb]
      exact hgo
    rw [hout]
    refine ⟨?_, ?_, ?_, rfl⟩
    · show st'.decodes = 1
      rw [hdec, h1dec]
    · show st'.hits = (rid :: rest).length - 1
      rw [hhits, h1hits]
      simp
    · show st'.logo_tmp_files = [p]
      rw [htmp, h1tmp]

/-- C9 witness: a three-item run with a readable logo decodes once, hits the
cache twice, and persists exactly one logo temp file. -/
theorem C9_logo_cache_single_decode_witness :
    (outState (layout_qrs_to_pdf_streaming logoCfg [1, 2, 3])).decodes = 1 ∧
    (outState (layout_qrs_to_pdf_streaming logoCfg [1, 2, 3])).hits
      = [(1 : ℤ), 2, 3].length - 1 ∧
    (outState (layout_qrs_to_pdf_streaming logoCfg [1, 2, 3])).logo_tmp_files
      = ["assets/minato_qr_logo.png"] ∧
    isFailedB (layout_qrs_to_pdf_streaming logoCfg [1, 2, 3]) = false :=
  C9_logo_cache_single_decode logoCfg [1, 2, 3] "assets/minato_qr_logo.png" rfl rfl
    (fun _ _ => rfl) (by decide)

/-- C10 (implicit): in the streaming StickerGrid layout every drawn item carries
a label — the product code when the id is in the truthy product-code map, else
the literal `"record_id: <id>"` — so the no-label branch is unreachable in this
mode. -/
theorem C10_label_always_present :
    (∀ (cfg : StreamCfg) (ids : List ℤ) (n : ℕ),
       n < (outState (layout_qrs_to_pdf_streaming cfg ids)).draws.length →
       (drawAt (layout_qrs_to_pdf_streaming cfg ids) n).label
           = some (labelFor cfg.product_codes
               (drawAt (layout_qrs_to_pdf_streaming cfg ids) n).record_id) ∧
       (drawAt (layout_qrs_to_pdf_streaming cfg ids) n).label ≠ none) ∧
    (∀ (m : List (ℤ × String)) (rid : ℤ) (code : String),
       m.lookup rid = some code → labelFor (some m) rid = code) ∧
    (∀ (m : List (ℤ × String)) (rid : ℤ),
       m.lookup rid = none → labelFor (some m) rid = "record_id: " ++ toString rid) ∧
    (∀ rid : ℤ, labelFor none rid = "record_id: " ++ toString rid) := by
  refine ⟨?_, ?_, ?_, fun rid => rfl⟩
  · intro cfg ids n hn
    have hmem := getD_mem _ n dfltDraw hn
    have h := streamGo_pointwise cfg ids initState (by decide) (by intro d hd; cases hd)
      (drawAt (layout_qrs_to_pdf_streaming cfg ids) n) hmem
    have hl := h.1.2.2.1
    exact ⟨hl, by rw [hl]; simp⟩
  · intro m rid code hl
    simp [labelFor, hl]
  · intro m rid hl
    simp [labelFor, hl]

/-- C10 witness: the theorem applied at a one-item run without a product-code
map (fallback label) and at concrete map lookups. -/
theorem C10_label_always_present_witness :
    ((drawAt (layout_qrs_to_pdf_streaming noLogoCfg [9]) 0).label
        = some (labelFor noLogoCfg.product_codes
            (drawAt (layout_qrs_to_pdf_streaming noLogoCfg [9]) 0).record_id) ∧
     (drawAt (layout_qrs_to_pdf_streaming noLogoCfg [9]) 0).label ≠ none) ∧
    labelFor (some [((9 : ℤ), "ABC-1")]) 9 = "ABC-1" ∧
    labelFor (some [((9 : ℤ), "ABC-1")]) 8 = "record_id: " ++ toString (8 : ℤ) ∧
    labelFor none (9 : ℤ) = "record_id: " ++ toString (9 : ℤ) := by
  refine ⟨C10_label_always_present.1 noLogoCfg [9] 0 (by decide),
    C10_label_always_present.2.1 [((9 : ℤ), "ABC-1")] 9 "ABC-1" (by decide),
    C10_label_always_present.2.2.1 [((9 : ℤ), "ABC-1")] 8 (by decide),
    C10_label_always_present.2.2.2 9⟩

end BizcloudQr
